import Mathlib

/-!
Formal model of the agent-groq policy-and-sandbox layer.

The definitions below are a shallow embedding of the JavaScript source:

* `src/index.js` — `DANGEROUS_PATTERNS`, `validateCode`, `createSandboxedFunction`,
  `createCustomTool`, `executeWithTimeout`, and the rate-limit status route;
* `src/guardrails.js` — the `Guardrails` class: `validateContent`, `checkRateLimit`,
  `validateTool`, `sanitizeOutput`, together with the pattern lists built in the
  constructor (`harmfulPatterns`, `sensitiveTopics`, `piiPatterns`).

JavaScript regular expressions over the relevant pattern shapes are embedded by a
small backtracking matcher (`RX`, `matchRX`) whose alternative/quantifier ordering
mirrors the ECMAScript semantics: alternatives are tried left to right, greedy
quantifiers try the longest repetition first and backtrack downwards, and the
leftmost match wins.  Strings are modelled as `List Char`/`String`; all source
texts of interest here are ASCII, so the UTF-16 details of JS strings do not
show through.  Timestamps (`Date.now()`) are modelled as natural numbers of
milliseconds; JS exceptions are modelled with `Except`.
-/

/-- JS word character, as used by `\b` and `\w`: `[A-Za-z0-9_]`. -/
def isWordChar (c : Char) : Bool := c.isAlphanum || c == '_'

/-- JS whitespace class `\s` restricted to the ASCII space characters
(the source strings never contain the exotic Unicode spaces). -/
def isJsSpace (c : Char) : Bool :=
  c == ' ' || c == '\t' || c == '\n' || c == '\r' || c == '\x0b' || c == '\x0c'

/-- JS digit class `\d`: `[0-9]`. -/
def isDigitChar (c : Char) : Bool := c.isDigit

/-- Abstract syntax of the regular-expression fragment used by the source
patterns: character classes, the zero-width word boundary `\b`, sequencing,
alternation, an optional single-class character (`?`), and an unbounded greedy
class repetition with a minimum count (`*`, `+`, `{n,}`). -/
inductive RX : Type
  | eps : RX
  | cls (p : Char → Bool) : RX
  | boundary : RX
  | seq (a b : RX) : RX
  | alt (a b : RX) : RX
  | opt (p : Char → Bool) : RX
  | rep (p : Char → Bool) (minN : Nat) : RX

/-- Length of the maximal prefix of `s` whose characters satisfy `p`. -/
def leadCount (p : Char → Bool) : List Char → Nat
  | [] => 0
  | c :: cs => if p c then leadCount p cs + 1 else 0

/-- The character preceding the remainder after consuming `n` characters of `s`
(used to evaluate `\b`); `prev` is the character preceding `s` itself. -/
def lastOfTaken (prev : Option Char) (s : List Char) (n : Nat) : Option Char :=
  if n = 0 then prev else (s.take n).getLast?

/-- Try the continuation `k` after consuming exactly `n` characters of `s`. -/
def tryConsume (prev : Option Char) (s : List Char) (n : Nat)
    (k : Option Char → List Char → Option (List Char)) : Option (List Char) :=
  k (lastOfTaken prev s n) (s.drop n)

/-- Greedy repetition: try consuming `n, n-1, …, minN` class characters, taking
the first continuation success — the ECMAScript backtracking order. -/
def tryRepFrom (prev : Option Char) (s : List Char) (minN : Nat)
    (k : Option Char → List Char → Option (List Char)) : Nat → Option (List Char)
  | 0 => if 0 < minN then none else tryConsume prev s 0 k
  | n + 1 =>
    if n + 1 < minN then none
    else
      match tryConsume prev s (n + 1) k with
      | some r => some r
      | none => tryRepFrom prev s minN k n

/-- Backtracking matcher in continuation-passing style.  `prev` is the character
just before the current position (`none` at the string start); the continuation
receives the updated `prev` and the unconsumed suffix, and the overall result is
the unconsumed suffix after a successful complete match. -/
def matchRX : RX → Option Char → List Char → (Option Char → List Char → Option (List Char)) →
    Option (List Char)
  | .eps, prev, s, k => k prev s
  | .cls p, _, s, k =>
    match s with
    | [] => none
    | c :: cs => if p c then k (some c) cs else none
  | .boundary, prev, s, k =>
    let before := match prev with | none => false | some c => isWordChar c
    let after := match s with | [] => false | c :: _ => isWordChar c
    if before != after then k prev s else none
  | .seq a b, prev, s, k => matchRX a prev s (fun p2 s2 => matchRX b p2 s2 k)
  | .alt a b, prev, s, k =>
    match matchRX a prev s k with
    | some r => some r
    | none => matchRX b prev s k
  | .opt p, prev, s, k =>
    match s with
    | [] => k prev s
    | c :: cs =>
      if p c then
        match k (some c) cs with
        | some r => some r
        | none => k prev s
      else k prev s
  | .rep p minN, prev, s, k => tryRepFrom prev s minN k (leadCount p s)

/-- Leftmost match search: returns `(prefix before the match, matched text,
suffix after the match)` for the first position (scanning left to right) at
which the pattern matches, or `none`. -/
def findSplit (r : RX) : Option Char → List Char → Option (List Char × List Char × List Char)
  | prev, s =>
    match matchRX r prev s (fun _ rest => some rest) with
    | some rest => some ([], s.take (s.length - rest.length), rest)
    | none =>
      match s with
      | [] => none
      | c :: cs =>
        match findSplit r (some c) cs with
        | some (pre, m, post) => some (c :: pre, m, post)
        | none => none

/-- One rewrite step plus recursion for `String.replace` with a `/g` regex:
every non-overlapping leftmost match is replaced; scanning resumes after each
match with the last matched character as the new `prev` (boundaries are
evaluated on the original text).  `fuel` bounds the recursion; every source
pattern matches at least one character, so `s.length + 1` fuel is enough. -/
def replaceAllGo (r : RX) (repl : List Char) : Nat → Option Char → List Char → List Char
  | 0, _, s => s
  | fuel + 1, prev, s =>
    match findSplit r prev s with
    | none => s
    | some (pre, m, post) =>
      match m with
      | [] => s
      | _ :: _ => pre ++ repl ++ replaceAllGo r repl fuel m.getLast? post

/-- JS `str.replace(pattern, repl)` for a `/g` pattern with a plain replacement
string. -/
def replaceAllRX (r : RX) (repl : String) (s : String) : String :=
  ⟨replaceAllGo r repl.data (s.length + 1) none s.data⟩

/-- Sequence a list of expressions. -/
def rxSeq : List RX → RX
  | [] => .eps
  | [r] => r
  | r :: rs => .seq r (rxSeq rs)

/-- Alternation over a list of expressions (tried left to right). -/
def rxAlt : List RX → RX
  | [] => .cls (fun _ => false)
  | [r] => r
  | r :: rs => .alt r (rxAlt rs)

/-- Case-insensitive literal (a pattern compiled with the `i` flag);
non-letter characters match only themselves. -/
def ciStr (s : String) : RX :=
  rxSeq (s.data.map (fun c => RX.cls (fun x => x.toLower == c.toLower)))

/-- Case-sensitive literal. -/
def csStr (s : String) : RX :=
  rxSeq (s.data.map (fun c => RX.cls (fun x => x == c)))

/-- JS `.`: any character except a line terminator. -/
def anyChar : RX := .cls (fun c => !(c == '\n' || c == '\r'))

/-- Case-insensitive literal in which `.` stands for the regex any-character
(the guardrails word lists write patterns such as `self.harm`). -/
def ciStrDotAny (s : String) : RX :=
  rxSeq (s.data.map (fun c =>
    if c == '.' then anyChar else RX.cls (fun x => x.toLower == c.toLower)))

/-- `\b…\b` wrapping. -/
def wb (r : RX) : RX := rxSeq [.boundary, r, .boundary]

/-- `\d{n}`. -/
def digits (n : Nat) : RX := rxSeq (List.replicate n (RX.cls isDigitChar))

/-!
## CodeValidator — `DANGEROUS_PATTERNS` and `validateCode` (src/index.js)
-/

/-- The ordered deny-list of `src/index.js` (`DANGEROUS_PATTERNS`), one `RX`
per source regex, in source order.  All are `/gi` except `\bENV\b`, which is
`/g` (case-sensitive). -/
def DANGEROUS_PATTERNS : List RX :=
  [ -- Node.js dangerous globals
    rxSeq [.boundary, ciStr "require", .rep isJsSpace 0, csStr "("],
    rxSeq [.boundary, ciStr "import", .rep isJsSpace 0, csStr "("],
    wb (ciStr "process"),
    wb (ciStr "global"),
    wb (ciStr "globalThis"),
    -- File system access
    wb (ciStr "fs"),
    wb (ciStr "child_process"),
    wb (ciStr "execSync"),
    wb (ciStr "spawnSync"),
    rxSeq [.boundary, ciStr "exec", .boundary, .rep isJsSpace 0, csStr "("],
    rxSeq [.boundary, ciStr "spawn", .boundary, .rep isJsSpace 0, csStr "("],
    -- Network access
    rxSeq [.boundary, ciStr "fetch", .rep isJsSpace 0, csStr "("],
    wb (ciStr "XMLHttpRequest"),
    wb (ciStr "WebSocket"),
    wb (ciStr "http"),
    wb (ciStr "https"),
    wb (ciStr "net"),
    -- Dangerous eval patterns
    rxSeq [.boundary, ciStr "eval", .rep isJsSpace 0, csStr "("],
    rxSeq [.boundary, ciStr "Function", .rep isJsSpace 0, csStr "("],
    rxSeq [.boundary, ciStr "setTimeout", .rep isJsSpace 0, csStr "("],
    rxSeq [.boundary, ciStr "setInterval", .rep isJsSpace 0, csStr "("],
    rxSeq [.boundary, ciStr "setImmediate", .rep isJsSpace 0, csStr "("],
    -- Prototype pollution
    ciStr "__proto__",
    rxSeq [.boundary, ciStr "constructor", .rep isJsSpace 0, csStr "["],
    wb (ciStr "prototype"),
    -- Environment access
    wb (ciStr "env"),
    rxSeq [.boundary, csStr "ENV", .boundary],
    ciStr "process.env",
    -- Buffer/Binary operations
    wb (ciStr "Buffer"),
    -- Module system
    wb (ciStr "module"),
    wb (ciStr "exports"),
    wb (ciStr "__dirname"),
    wb (ciStr "__filename") ]

/-- First match of a pattern in a code string (JS `code.match(pattern)?.[0]`
for a `/g` pattern: the leftmost match of the whole string). -/
def firstMatchStr (r : RX) (code : String) : Option String :=
  (findSplit r none code.data).map (fun t => String.mk t.2.1)

/-- Result record of `validateCode`. -/
structure CodeValidation where
  isValid : Bool
  errors : List String
deriving DecidableEq

/-- `validateCode` of `src/index.js`: every pattern is tested (no
short-circuit), each firing pattern appends one message quoting its first
matched substring, and the code is valid iff no pattern fired.  (The source
also resets each regex's `lastIndex` after testing, so the function is
deterministic; every source pattern matches at least one character, so the
`match?.[0] || pattern.source` fallback never takes the `pattern.source`
branch when the test fired.) -/
def validateCode (code : String) : CodeValidation :=
  let errors := DANGEROUS_PATTERNS.foldl (fun errs p =>
    match firstMatchStr p code with
    | some m => errs ++ ["Blocked pattern detected: \"" ++ m ++ "\""]
    | none => errs) []
  ⟨errors.isEmpty, errors⟩

/-!
## RateLimiter — `Guardrails.checkRateLimit` (src/guardrails.js)
-/

/-- One entry of `rateLimitStore`: `{ count, resetTime }`. -/
structure RateRecord where
  count : Nat
  resetTime : Nat
deriving DecidableEq

/-- Result of `checkRateLimit`. -/
structure RLResult where
  allowed : Bool
  reason : Option String
  retryAfter : Option Nat
deriving DecidableEq

/-- The record `checkRateLimit` works on after the lookup-with-default and the
window-reset step: `rateLimitStore.get(sessionId) || { count: 0, resetTime:
now + 60000 }`, then `if (now > record.resetTime) { count = 0; resetTime =
now + 60000 }`.  Note the strict `>`. -/
def effectiveRecord (now : Nat) (rec? : Option RateRecord) : RateRecord :=
  match rec? with
  | none => ⟨0, now + 60000⟩
  | some r => if r.resetTime < now then ⟨0, now + 60000⟩ else r

/-- `Guardrails.checkRateLimit`, in state-passing form over one identity's
store entry.  The second component is the store entry after the call: on the
deny path the source does not call `set`, but it has already mutated the
looked-up record object in place when the reset branch ran, so an existing
entry still reflects the reset (`match rec? with | some _ => some record`);
on the allow path the incremented record is `set`.  `retryAfter` is
`Math.ceil((resetTime - now) / 1000)`, which on every reachable deny path has
a non-negative numerator, so it equals `(resetTime - now + 999) / 1000` in
natural-number arithmetic. -/
def checkRateLimit (maxPerMin now : Nat) (rec? : Option RateRecord) :
    RLResult × Option RateRecord :=
  let record := effectiveRecord now rec?
  if maxPerMin ≤ record.count then
    (⟨false,
      some ("Rate limit exceeded: " ++ toString maxPerMin ++ " requests per minute"),
      some ((record.resetTime - now + 999) / 1000)⟩,
     match rec? with | some _ => some record | none => none)
  else
    (⟨true, none, none⟩, some ⟨record.count + 1, record.resetTime⟩)

/-- Handler core of `GET /api/guardrails/rate-limit` (src/index.js): it looks
up the session's guardrails and calls the same counting `checkRateLimit` on
the session id — there is no read-only variant. -/
def rateLimitStatusRoute (maxPerMin now : Nat) (rec? : Option RateRecord) :
    RLResult × Option RateRecord :=
  checkRateLimit maxPerMin now rec?

/-- A sequence of `checkRateLimit` calls at the given times, threading the
store entry; returns how many calls were allowed and the final entry. -/
def runChecks (maxPerMin : Nat) : Option RateRecord → List Nat → Nat × Option RateRecord
  | st, [] => (0, st)
  | st, t :: ts =>
    let step := checkRateLimit maxPerMin t st
    let rest := runChecks maxPerMin step.2 ts
    ((if step.1.allowed then 1 else 0) + rest.1, rest.2)

/-!
## ToolAuthorizer — `Guardrails.validateTool` (src/guardrails.js)
-/

/-- Result of `validateTool`. -/
structure ToolCheck where
  allowed : Bool
  reason : Option String
deriving DecidableEq

/-- `Guardrails.validateTool`: the block-list is consulted first, then the
allow-list (when present — `null` means all allowed). -/
def validateTool (blockedTools : List String) (allowedTools : Option (List String))
    (toolName : String) : ToolCheck :=
  if blockedTools.contains toolName then
    ⟨false, some ("Tool \"" ++ toolName ++ "\" is blocked by policy")⟩
  else
    match allowedTools with
    | some allowed =>
      if allowed.contains toolName then ⟨true, none⟩
      else ⟨false, some ("Tool \"" ++ toolName ++ "\" is not in the allowed tools list")⟩
    | none => ⟨true, none⟩

/-!
## ContentPolicyEngine — `sanitizeOutput` (src/guardrails.js)
-/

/-- `piiPatterns` of the `Guardrails` constructor, in source order:
SSN, credit card, email, phone.  The email TLD class is written `[A-Z|a-z]`
in the source, so it also admits the `|` character. -/
def piiPatterns : List RX :=
  [ rxSeq [.boundary, digits 3, csStr "-", digits 2, csStr "-", digits 4, .boundary],
    rxSeq [.boundary, digits 4, .opt isJsSpace, digits 4, .opt isJsSpace, digits 4,
           .opt isJsSpace, digits 4, .boundary],
    rxSeq [.boundary,
           .rep (fun c => c.isAlphanum || c == '.' || c == '_' || c == '%' || c == '+' || c == '-') 1,
           csStr "@",
           .rep (fun c => c.isAlphanum || c == '.' || c == '-') 1,
           csStr ".",
           .rep (fun c => c.isAlpha || c == '|') 2,
           .boundary],
    rxSeq [.boundary, digits 3, csStr "-", digits 3, csStr "-", digits 4, .boundary] ]

/-- The truncation marker appended by `sanitizeOutput`. -/
def truncMarker : List Char := "... [truncated]".data

/-- The PII-redaction pass of `sanitizeOutput`: each `piiPatterns` regex is
applied as a global replace with `[REDACTED]`, in order, when `blockPII`. -/
def redactPII (blockPII : Bool) (s : String) : String :=
  if blockPII then piiPatterns.foldl (fun acc r => replaceAllRX r "[REDACTED]" acc) s
  else s

/-- The truncation pass of `sanitizeOutput` on character lists:
`substring(0, maxResponseLength) + '... [truncated]'` when strictly too long. -/
def truncList (maxLen : Nat) (l : List Char) : List Char :=
  if maxLen < l.length then l.take maxLen ++ truncMarker else l

/-- `Guardrails.sanitizeOutput`: redact PII, then truncate. -/
def sanitizeOutput (blockPII : Bool) (maxResponseLength : Nat) (content : String) : String :=
  ⟨truncList maxResponseLength (redactPII blockPII content).data⟩

/-!
## ContentPolicyEngine — `validateContent` (src/guardrails.js)

The `Guardrails` constructor stores `/gi` regex objects on the instance, so
each regex carries a mutable `lastIndex` between calls.  `validateContent`
calls `pattern.test(content)` on them and — unlike `validateCode` — never
resets `lastIndex`, so that state must be part of the model.
-/

/-- `harmfulPatterns` of the `Guardrails` constructor, in source order.
An unescaped `.` inside a word (e.g. `self.harm`) is the regex any-character. -/
def harmfulPatterns : List RX :=
  [ wb (rxAlt ([ "kill", "murder", "assassinate", "violence", "harm", "hurt",
                 "attack" ].map ciStrDotAny)),
    wb (rxAlt ([ "suicide", "self.harm", "end.life" ].map ciStrDotAny)),
    wb (rxAlt ([ "hack", "steal", "fraud", "illegal", "drugs", "weapon" ].map ciStrDotAny)),
    wb (rxAlt ([ "hate", "discriminate", "racist", "sexist" ].map ciStrDotAny)),
    wb (rxAlt ([ "explicit", "porn", "nsfw", "adult.content" ].map ciStrDotAny)) ]

/-- `sensitiveTopics` of the `Guardrails` constructor, in source order. -/
def sensitiveTopics : List RX :=
  [ wb (rxAlt ([ "classified", "secret", "confidential", "top.secret" ].map ciStrDotAny)),
    wb (rxAlt ([ "ssn", "social.security", "credit.card", "password" ].map ciStrDotAny)),
    wb (rxAlt ([ "api.key", "access.token", "private.key" ].map ciStrDotAny)) ]

/-- `regex.test(s)` for a `/g` regex object with state `lastIndex = li`:
search for the first match starting at an index `≥ li` (word boundaries are
judged against the full string).  On success the new `lastIndex` is the match
end; on failure it is reset to `0`. -/
def testWithLastIndex (r : RX) (li : Nat) (s : List Char) : Bool × Nat :=
  let prev := if li = 0 then none else s.get? (li - 1)
  match findSplit r prev (s.drop li) with
  | some (_, _, post) => (true, s.length - post.length)
  | none => (false, 0)

/-- One `for … { if (pattern.test(content)) { push; break } }` loop over a
pattern family, threading each regex's `lastIndex`: patterns after the first
firing one are not tested and keep their `lastIndex`. -/
def scanFamily : List RX → List Nat → List Char → Bool × List Nat
  | [], lis, _ => (false, lis)
  | _ :: _, [], _ => (false, [])
  | r :: rs, li :: lis, s =>
    let t := testWithLastIndex r li s
    if t.1 then (true, t.2 :: lis)
    else
      let rest := scanFamily rs lis s
      (rest.1, t.2 :: rest.2)

/-- The per-instance `lastIndex` state of the three pattern families. -/
structure RegexStates where
  harmful : List Nat
  sensitive : List Nat
  pii : List Nat
deriving DecidableEq

/-- Fresh instance state: all `lastIndex` fields are `0`. -/
def initialRegexStates : RegexStates :=
  ⟨List.replicate 5 0, List.replicate 3 0, List.replicate 4 0⟩

/-- The policy fields consulted by `validateContent`/`sanitizeOutput`; the
constructor defaults are `defaultGRPolicies` below. -/
structure GRPolicies where
  blockHarmfulContent : Bool
  blockSensitiveTopics : Bool
  blockPII : Bool
  maxResponseLength : Nat
deriving DecidableEq

/-- Constructor defaults: all three blocks on, `maxResponseLength` 10000. -/
def defaultGRPolicies : GRPolicies := ⟨true, true, true, 10000⟩

/-- Result value of a custom filter: `{ valid, reason? }`; `none` models a
falsy return value (`result && !result.valid` then skips the push). -/
structure CFRes where
  valid : Bool
  reason : Option String
deriving DecidableEq

/-- A configured custom filter, able to fault (`Except.error` = JS throw). -/
def CustomFilter : Type := String → String → Except String (Option CFRes)

/-- The `for (const filter of customFilters)` loop: each filter runs in order;
a truthy result with a falsy `valid` pushes `reason || 'Custom filter
violation'`; a thrown exception propagates (there is no try/catch). -/
def runFilters : List CustomFilter → String → String → Except String (List String)
  | [], _, _ => .ok []
  | f :: fs, c, t =>
    match f c t with
    | .error e => .error e
    | .ok none => runFilters fs c t
    | .ok (some r) =>
      if r.valid then runFilters fs c t
      else (runFilters fs c t).map (fun vs => (r.reason.getD "Custom filter violation") :: vs)

/-- Result record of `validateContent`. -/
structure VCResult where
  valid : Bool
  violations : List String
deriving DecidableEq

/-- `Guardrails.validateContent`, with the instance's regex `lastIndex` state
threaded explicitly.  Empty content returns early (before any regex is
touched); each enabled family contributes at most one violation (`break` after
the first firing pattern); PII and the length check apply only on the
`output` phase; custom filters run last and may throw, which aborts the call
(`Except.error`) while the regex state mutations already performed remain. -/
def validateContent (pol : GRPolicies) (filters : List CustomFilter)
    (content ty : String) (st : RegexStates) :
    Except String VCResult × RegexStates :=
  if content = "" then (.ok ⟨false, ["Content must be a non-empty string"]⟩, st)
  else
    let s := content.data
    let hres := if pol.blockHarmfulContent then scanFamily harmfulPatterns st.harmful s
                else (false, st.harmful)
    let sres := if pol.blockSensitiveTopics then scanFamily sensitiveTopics st.sensitive s
                else (false, st.sensitive)
    let pres := if ty == "output" && pol.blockPII then scanFamily piiPatterns st.pii s
                else (false, st.pii)
    let baseV :=
      (if hres.1 then ["Blocked harmful content pattern detected"] else []) ++
      (if sres.1 then ["Blocked sensitive topic detected"] else []) ++
      (if pres.1 then ["Personal Identifiable Information (PII) detected in output"] else []) ++
      (if ty == "output" && pol.maxResponseLength < s.length then
        ["Response exceeds maximum length of " ++ toString pol.maxResponseLength ++ " characters"]
       else [])
    let st' : RegexStates := ⟨hres.2, sres.2, pres.2⟩
    match runFilters filters content ty with
    | .error e => (.error e, st')
    | .ok vs => (.ok ⟨(baseV ++ vs).isEmpty, baseV ++ vs⟩, st')

/-!
## SandboxExecutor — scope and run boundary (src/index.js)
-/

/-- The keys of `SAFE_GLOBALS` in `src/index.js`, in source order. -/
def SAFE_GLOBALS : List String :=
  [ "Math", "JSON", "parseInt", "parseFloat", "isNaN", "isFinite",
    "encodeURIComponent", "decodeURIComponent", "encodeURI", "decodeURI",
    "Array", "Object", "String", "Number", "Boolean", "Date", "RegExp",
    "Map", "Set", "Promise", "console" ]

/-- The helper names spread into the execution context by `createCustomTool`:
the three composition helpers plus `...SAFE_GLOBALS`. -/
def helperNames : List String := ["transform", "mapWith", "filterWith"] ++ SAFE_GLOBALS

/-- The parameter names passed to the `AsyncFunction` constructor by
`createSandboxedFunction(code, Object.keys(allParams))`, where
`allParams = { ...params, ...helpers }`: the caller-declared parameters for the
invocation followed by the helper set. -/
def sandboxParamNames (toolParams : List String) : List String :=
  toolParams ++ helperNames

/-- Modelled from the ECMAScript semantics of the source's
`new AsyncFunction(...paramNames, wrappedCode)` (src/index.js,
`createSandboxedFunction`): a function created through the `Function`
constructor family is created in the realm's global scope, so free names in
its body resolve against the parameters and then against the global
environment.  This list is a fragment of the Node.js global names, enough for
the theorems below; it is not exhaustive. -/
def nodeGlobalNames : List String :=
  [ "globalThis", "Reflect", "Proxy", "Symbol", "Error", "TypeError", "RangeError",
    "WeakMap", "WeakSet", "BigInt", "Atomics", "ArrayBuffer", "Uint8Array",
    "queueMicrotask", "structuredClone", "URL", "TextEncoder", "TextDecoder",
    "process", "Buffer", "fetch", "setTimeout", "setInterval", "eval", "Function",
    "Math", "JSON", "Array", "Object", "String", "Number", "Boolean", "Date",
    "RegExp", "Map", "Set", "Promise", "console", "parseInt", "parseFloat",
    "isNaN", "isFinite", "encodeURIComponent", "decodeURIComponent",
    "encodeURI", "decodeURI" ]

/-- Name resolution inside the sandboxed executable: a free name resolves iff
it is one of the function's parameters (caller parameters + helpers) or a name
of the ambient global environment the `AsyncFunction`-created function closes
over. -/
def reachableName (toolParams : List String) (n : String) : Bool :=
  (sandboxParamNames toolParams).contains n || nodeGlobalNames.contains n

/-- JS values returned by a tool body, as far as `String(result)` needs. -/
inductive JSValue : Type
  | str (s : String)
  | num (n : Int)
  | boolean (b : Bool)
deriving DecidableEq

/-- `String(result)` on the modelled values. -/
def jsToString : JSValue → String
  | .str s => s
  | .num n => toString n
  | .boolean b => if b then "true" else "false"

/-- Outcome of awaiting the sandboxed call inside the `Promise.race`:
it resolves to a value, rejects with an exception message, or the 5000 ms
deadline fires first. -/
inductive ExecOutcome : Type
  | ok (v : JSValue)
  | err (msg : String)
  | timeout
deriving DecidableEq

/-- `executeWithTimeout` of `src/index.js`: the race turns a deadline expiry
into a rejection with message `Execution timeout (<ms>ms)`; other outcomes
pass through. -/
def executeWithTimeout (timeoutMs : Nat) (outcome : ExecOutcome) : Except String JSValue :=
  match outcome with
  | .ok v => .ok v
  | .err m => .error m
  | .timeout => .error ("Execution timeout (" ++ toString timeoutMs ++ "ms)")

/-- JS `Array.prototype.join(', ')`. -/
def joinComma : List String → String
  | [] => ""
  | [s] => s
  | s :: rest => s ++ ", " ++ joinComma rest

/-- The tool closure built by `createCustomTool` (src/index.js): validate the
code-typed arguments (returning `Security error: …` for the first invalid
one), re-validate the body inside `createSandboxedFunction` (whose throw is
caught by the surrounding try/catch like any other exception), run under the
5000 ms race, coerce a success to text with `String(result)`, and map any
caught exception to `Error: <message>`.  The function is total: no exception
escapes the boundary. -/
def customToolRun (code : String) (codeArgs : List String) (outcome : ExecOutcome) : String :=
  match codeArgs.find? (fun c => !(validateCode c).isValid) with
  | some bad => "Security error: " ++ joinComma (validateCode bad).errors
  | none =>
    let run : Except String JSValue :=
      if (validateCode code).isValid then executeWithTimeout 5000 outcome
      else .error ("Security violation: " ++ joinComma (validateCode code).errors)
    match run with
    | .ok v => jsToString v
    | .error m => "Error: " ++ m

/-!
## Theorems
-/

/-- Claim C7: `validateTool` authorizes a tool name iff the name is not in the
block-list and (the allow-list is absent or the name is in the allow-list);
in particular a name present in both lists is denied (take `n ∈ bl`, which
falsifies the right-hand side regardless of the allow-list). -/
theorem validateTool_allowed_iff (bl : List String) (al : Option (List String)) (n : String) :
    (validateTool bl al n).allowed = true ↔
      n ∉ bl ∧ (al = none ∨ ∃ l, al = some l ∧ n ∈ l) := by
  unfold validateTool
  by_cases hb : n ∈ bl
  · simp [hb]
  · cases al with
    | none => simp [hb]
    | some l =>
      by_cases ha : n ∈ l
      · simp [hb, ha]
      · simp [hb, ha]

/-- Claim C3 counterexample: with limit 1, a record whose window ends at time
1000 and whose count is exhausted, a request arriving exactly at `windowEnd`
(`now = 1000`) is NOT given a fresh window: the source resets only when
`now > resetTime` (strict), so the call is denied with `retryAfter = 0` and
the stored record keeps the old window, where the claim predicts a reset to
`count = 0, windowEnd = now + 60s` followed by an allowed admission. -/
theorem checkRateLimit_no_reset_at_window_end :
    checkRateLimit 1 1000 (some ⟨1, 1000⟩) =
      (⟨false, some "Rate limit exceeded: 1 requests per minute", some 0⟩,
       some ⟨1, 1000⟩) := by
  decide

/-- Claim C3 (amended): the record is reset to a fresh window only when
`now > windowEnd` strictly; in that case the call behaves exactly as if no
record existed — the same result, and (whenever the per-minute limit is at
least 1, so the fresh window admits the request) the same stored record. -/
theorem checkRateLimit_reset_strictly_after_window
    (maxPerMin now : Nat) (r : RateRecord) (h : r.resetTime < now) :
    (checkRateLimit maxPerMin now (some r)).1 = (checkRateLimit maxPerMin now none).1 ∧
    (1 ≤ maxPerMin →
      checkRateLimit maxPerMin now (some r) = checkRateLimit maxPerMin now none) := by
  have he : effectiveRecord now (some r) = ⟨0, now + 60000⟩ := by
    simp [effectiveRecord, h]
  have he2 : effectiveRecord now none = ⟨0, now + 60000⟩ := rfl
  constructor
  · simp only [checkRateLimit, he, he2]
    split <;> rfl
  · intro hm
    have hlt : ¬ maxPerMin ≤ 0 := by omega
    simp [checkRateLimit, he, he2, hlt]

/-- Witness for `checkRateLimit_reset_strictly_after_window` at a concrete
input: an expired record behaves like a missing one. -/
theorem checkRateLimit_reset_strictly_after_window_witness :
    (1000 : Nat) < 70000 ∧
      checkRateLimit 1 70000 (some ⟨1, 1000⟩) = checkRateLimit 1 70000 none :=
  ⟨by decide,
   (checkRateLimit_reset_strictly_after_window 1 70000 ⟨1, 1000⟩ (by decide)).2 (by decide)⟩

/-- Inside an open window (`now ≤ resetTime`) a run of calls from a record
with `c ≤ maxPerMin` admissions already counted allows exactly
`min (number of calls) (maxPerMin - c)` requests. -/
theorem runChecks_window (maxPerMin : Nat) :
    ∀ (ts : List Nat) (c W : Nat), (∀ t ∈ ts, t ≤ W) → c ≤ maxPerMin →
      (runChecks maxPerMin (some ⟨c, W⟩) ts).1 = min ts.length (maxPerMin - c) := by
  intro ts
  induction ts with
  | nil => intro c W _ _; simp [runChecks]
  | cons t ts ih =>
    intro c W hts hc
    have ht : t ≤ W := hts t (List.mem_cons_self t ts)
    have hts' : ∀ u ∈ ts, u ≤ W := fun u hu => hts u (List.mem_cons_of_mem t hu)
    have hnr : ¬ W < t := by omega
    have he : effectiveRecord t (some ⟨c, W⟩) = ⟨c, W⟩ := by
      simp [effectiveRecord, hnr]
    by_cases hfull : maxPerMin ≤ c
    · have hceq : c = maxPerMin := by omega
      have hstep : checkRateLimit maxPerMin t (some ⟨c, W⟩) =
          (⟨false, some ("Rate limit exceeded: " ++ toString maxPerMin ++
              " requests per minute"), some ((W - t + 999) / 1000)⟩, some ⟨c, W⟩) := by
        simp [checkRateLimit, he, hfull]
      have hrest := ih c W hts' hc
      simp [runChecks, hstep, hrest]
      omega
    · have hstep : checkRateLimit maxPerMin t (some ⟨c, W⟩) =
          (⟨true, none, none⟩, some ⟨c + 1, W⟩) := by
        simp [checkRateLimit, he, hfull]
      have hrest := ih (c + 1) W hts' (by omega)
      simp [runChecks, hstep, hrest]
      omega

/-- Claim C4: when the window is still open (`now ≤ resetTime`) and the count
has reached the limit, `checkRateLimit` denies with
`retryAfter = ceil((resetTime - now) / 1000)` and leaves the stored record
unchanged; and consequently a burst of calls starting from no record, all
falling inside the first call's 60-second window, is granted exactly
`min (number of calls) maxPerMin` admissions — i.e. exactly `maxPerMin`
admissions once the burst is long enough, with denials for the rest. -/
theorem checkRateLimit_deny_and_window_capacity :
    (∀ (maxPerMin now : Nat) (r : RateRecord),
      maxPerMin ≤ r.count → now ≤ r.resetTime →
      checkRateLimit maxPerMin now (some r) =
        (⟨false,
          some ("Rate limit exceeded: " ++ toString maxPerMin ++ " requests per minute"),
          some ((r.resetTime - now + 999) / 1000)⟩, some r)) ∧
    (∀ (maxPerMin t0 : Nat) (rest : List Nat),
      1 ≤ maxPerMin → (∀ t ∈ rest, t ≤ t0 + 60000) →
      (runChecks maxPerMin none (t0 :: rest)).1 = min (rest.length + 1) maxPerMin) := by
  constructor
  · intro maxPerMin now r hfull hopen
    have hnr : ¬ r.resetTime < now := by omega
    have he : effectiveRecord now (some r) = r := by
      simp [effectiveRecord, hnr]
    simp [checkRateLimit, he, hfull]
  · intro maxPerMin t0 rest hm hrest
    have he : effectiveRecord t0 none = ⟨0, t0 + 60000⟩ := rfl
    have hnz : ¬ maxPerMin ≤ 0 := by omega
    have hstep : checkRateLimit maxPerMin t0 none = (⟨true, none, none⟩, some ⟨1, t0 + 60000⟩) := by
      simp [checkRateLimit, he, hnz]
    have hrun := runChecks_window maxPerMin rest 1 (t0 + 60000) hrest (by omega)
    simp [runChecks, hstep, hrun]
    omega

/-- Witness for `checkRateLimit_deny_and_window_capacity` at concrete inputs:
a full record in an open window is denied, and a burst of four calls against a
limit of two admits exactly two. -/
theorem checkRateLimit_deny_and_window_capacity_witness :
    (checkRateLimit 2 5 (some ⟨2, 60000⟩)).1.allowed = false ∧
      (runChecks 2 none [0, 10, 20, 30]).1 = 2 := by
  constructor
  · have h := checkRateLimit_deny_and_window_capacity.1 2 5 ⟨2, 60000⟩ (by decide) (by decide)
    rw [h]
  · have h := checkRateLimit_deny_and_window_capacity.2 2 0 [10, 20, 30] (by decide) (by decide)
    simpa using h

/-- Claim C10: the rate-limit status route runs the very same counting
`checkRateLimit` (no read-only variant), and every call that returns
`allowed = true` persists the current-window record with its count incremented
by exactly one — so a status query consumes one admission. -/
theorem checkRateLimit_allowed_increments_and_persists
    (maxPerMin now : Nat) (rec? : Option RateRecord)
    (h : (checkRateLimit maxPerMin now rec?).1.allowed = true) :
    rateLimitStatusRoute maxPerMin now rec? = checkRateLimit maxPerMin now rec? ∧
    (checkRateLimit maxPerMin now rec?).2 =
      some ⟨(effectiveRecord now rec?).count + 1, (effectiveRecord now rec?).resetTime⟩ := by
  refine ⟨rfl, ?_⟩
  by_cases hc : maxPerMin ≤ (effectiveRecord now rec?).count
  · exfalso
    have : (checkRateLimit maxPerMin now rec?).1.allowed = false := by
      simp [checkRateLimit, hc]
    rw [this] at h
    exact Bool.false_ne_true h
  · simp [checkRateLimit, hc]

/-- Witness for `checkRateLimit_allowed_increments_and_persists`: the first
status query for a fresh identity is allowed and stores `count = 1`. -/
theorem checkRateLimit_allowed_increments_and_persists_witness :
    (checkRateLimit 60 0 none).1.allowed = true ∧
      (checkRateLimit 60 0 none).2 = some ⟨1, 60000⟩ :=
  ⟨by decide, (checkRateLimit_allowed_increments_and_persists 60 0 none (by decide)).2⟩

/-- One character list is a contiguous infix of another. -/
def infixOfB (needle : List Char) : List Char → Bool
  | [] => needle.isEmpty
  | c :: cs => needle.isPrefixOf (c :: cs) || infixOfB needle cs

/-- Claim C2 (amended): `validateCode` evaluates every pattern without
short-circuiting — its violation list is exactly one entry per firing
pattern, in pattern order, each quoting the pattern's first matched
substring (`Blocked pattern detected: "<match>"`, with no capability-class
name) — and the code is valid iff no pattern fires. -/
theorem validateCode_violations_characterization (code : String) :
    (validateCode code).errors =
      DANGEROUS_PATTERNS.filterMap (fun p =>
        (firstMatchStr p code).map (fun m => "Blocked pattern detected: \"" ++ m ++ "\"")) ∧
    ((validateCode code).isValid = true ↔
      ∀ p ∈ DANGEROUS_PATTERNS, firstMatchStr p code = none) := by
  have key : ∀ (l : List RX) (acc : List String),
      l.foldl (fun errs p =>
        match firstMatchStr p code with
        | some m => errs ++ ["Blocked pattern detected: \"" ++ m ++ "\""]
        | none => errs) acc =
      acc ++ l.filterMap (fun p =>
        (firstMatchStr p code).map (fun m => "Blocked pattern detected: \"" ++ m ++ "\"")) := by
    intro l
    induction l with
    | nil => intro acc; simp
    | cons a l ih =>
      intro acc
      cases hf : firstMatchStr a code with
      | none => simp [List.foldl_cons, hf, ih]
      | some b => simp [List.foldl_cons, hf, ih]
  have herr : (validateCode code).errors =
      DANGEROUS_PATTERNS.filterMap (fun p =>
        (firstMatchStr p code).map (fun m => "Blocked pattern detected: \"" ++ m ++ "\"")) := by
    show (DANGEROUS_PATTERNS.foldl (fun errs p =>
        match firstMatchStr p code with
        | some m => errs ++ ["Blocked pattern detected: \"" ++ m ++ "\""]
        | none => errs) []) = _
    rw [key]
    simp

  refine ⟨herr, ?_⟩
  have hv : (validateCode code).isValid = (validateCode code).errors.isEmpty := rfl
  rw [hv, herr]
  rw [List.isEmpty_iff, List.filterMap_eq_nil_iff]
  constructor
  · intro h p hp
    have := h p hp
    cases hm : firstMatchStr p code with
    | none => rfl
    | some m => rw [hm] at this; simp at this
  · intro h p hp
    rw [h p hp]
    rfl

/-- Claim C2 counterexample: for the code string `fetch(u)` — which contains a
network-capability token — the single violation produced is the literal
message `Blocked pattern detected: "fetch("`; it quotes the matched substring
but does not name the offending capability class (the word `network` does not
occur in it), contradicting the claim that each violation names the
capability class. -/
theorem validateCode_violation_lacks_class_name :
    (validateCode "fetch(u)").isValid = false ∧
    (validateCode "fetch(u)").errors = ["Blocked pattern detected: \"fetch(\""] ∧
    infixOfB "network".data "Blocked pattern detected: \"fetch(\"".data = false := by
  refine ⟨by decide, by decide, by decide⟩

/-- Claim C1 counterexample: the body `return Reflect` passes `validateCode`,
and inside the executable built for a tool with no declared parameters the
name `Reflect` resolves (to the ambient Node.js global), yet `Reflect` is not
among the caller-declared parameters plus the fixed helper set — so a name
outside the explicit set is reachable from inside the executable. -/
theorem sandbox_scope_not_closed :
    (validateCode "return Reflect").isValid = true ∧
    reachableName [] "Reflect" = true ∧
    (sandboxParamNames []).contains "Reflect" = false := by
  refine ⟨by decide, by decide, by decide⟩

/-- Claim C1 (amended): the names reachable from within an executable built by
`createSandboxedFunction` are the caller-declared parameters, the fixed helper
set, and additionally the ambient global environment's names — the
`AsyncFunction`-constructed callable closes over the realm's global scope, and
static validation only rejects code that textually matches the deny-list, so a
global such as `Reflect` stays reachable even from validated code. -/
theorem sandbox_reachable_names_characterized :
    (∀ (toolParams : List String) (n : String),
      reachableName toolParams n = true ↔
        (n ∈ sandboxParamNames toolParams ∨ n ∈ nodeGlobalNames)) ∧
    (validateCode "return Reflect").isValid = true ∧
    reachableName [] "Reflect" = true ∧
    "Reflect" ∉ sandboxParamNames [] := by
  refine ⟨?_, by decide, by decide, by decide⟩
  intro toolParams n
  simp [reachableName]

/-- Claim C8: inside `createCustomTool`'s closure, once the body and the
code-typed arguments pass validation, every exception raised by the sandboxed
executable — a runtime fault or the 5000 ms race expiring — is caught at the
run boundary and returned as the text `Error: <message>`, never rethrown, and
a successful result is deterministically stringified with `String(result)`. -/
theorem customToolRun_error_boundary (code : String) (codeArgs : List String)
    (outcome : ExecOutcome)
    (hcode : (validateCode code).isValid = true)
    (hargs : ∀ c ∈ codeArgs, (validateCode c).isValid = true) :
    customToolRun code codeArgs outcome =
      match outcome with
      | .ok v => jsToString v
      | .err m => "Error: " ++ m
      | .timeout => "Error: Execution timeout (5000ms)" := by
  have hfind : codeArgs.find? (fun c => !(validateCode c).isValid) = none := by
    rw [List.find?_eq_none]
    intro c hc
    simp [hargs c hc]
  cases outcome with
  | ok v => simp [customToolRun, hfind, hcode, executeWithTimeout]
  | err m => simp [customToolRun, hfind, hcode, executeWithTimeout]
  | timeout =>
    simp only [customToolRun, hfind, hcode, executeWithTimeout, if_true]
    rfl

/-- Witness for `customToolRun_error_boundary`: a valid body whose execution
faults with message `boom` yields the text `Error: boom`. -/
theorem customToolRun_error_boundary_witness :
    customToolRun "return 1 + 1" [] (.err "boom") = "Error: boom" := by
  have h := customToolRun_error_boundary "return 1 + 1" [] (.err "boom")
    (by decide) (by intro c hc; cases hc)
  simpa using h

/-- The truncation pass is idempotent on its own outputs: truncating again
re-cuts the same prefix and re-appends the same marker. -/
theorem truncList_idem (maxLen : Nat) (l : List Char) :
    truncList maxLen (truncList maxLen l) = truncList maxLen l := by
  have hm : truncMarker.length = 15 := rfl
  by_cases h : maxLen < l.length
  · have hta : (l.take maxLen).length = maxLen := by
      simp [List.length_take]
      omega
    have hlen : (l.take maxLen ++ truncMarker).length = maxLen + 15 := by
      simp [List.length_append, hta, hm]
    simp only [truncList, if_pos h]
    have h2 : maxLen < (l.take maxLen ++ truncMarker).length := by omega
    rw [if_pos h2, List.take_append_eq_append_take, hta]
    simp [List.take_take]
  · simp [truncList, h]

/-- Claim C5 (amended): `sanitizeOutput` is idempotent exactly on the inputs
whose sanitized form the PII-redaction pass leaves unchanged.  Truncation is
idempotent on its own outputs (`truncList_idem`), so
`sanitize (sanitize x) = sanitize x` whenever
`redactPII (sanitize x) = sanitize x`; full idempotence fails because
truncation can expose a fresh PII-shaped match at the cut
(`sanitizeOutput_not_idempotent`). -/
theorem sanitizeOutput_idempotent_of_redact_fixed (bp : Bool) (ml : Nat) (x : String)
    (h : redactPII bp (sanitizeOutput bp ml x) = sanitizeOutput bp ml x) :
    sanitizeOutput bp ml (sanitizeOutput bp ml x) = sanitizeOutput bp ml x := by
  show String.mk (truncList ml (redactPII bp (sanitizeOutput bp ml x)).data) = _
  rw [h]
  show String.mk (truncList ml (truncList ml (redactPII bp x).data)) = _
  rw [truncList_idem]
  rfl

/-- Witness for `sanitizeOutput_idempotent_of_redact_fixed`: a short PII-free
text is a redaction fixpoint and sanitizing it twice changes nothing. -/
theorem sanitizeOutput_idempotent_of_redact_fixed_witness :
    redactPII true (sanitizeOutput true 12 "hello") = sanitizeOutput true 12 "hello" ∧
      sanitizeOutput true 12 (sanitizeOutput true 12 "hello") = sanitizeOutput true 12 "hello" :=
  ⟨by decide, sanitizeOutput_idempotent_of_redact_fixed true 12 "hello" (by decide)⟩

/-- Claim C5 counterexample: with `blockPII` on and `maxResponseLength = 12`,
the text `123-456-78901` contains no PII match (the trailing digit blocks the
phone pattern's final word boundary), so one sanitization only truncates it to
`123-456-7890... [truncated]`; the cut exposes a phone-shaped prefix, which
the second sanitization redacts — so `sanitize (sanitize x) ≠ sanitize x`. -/
theorem sanitizeOutput_not_idempotent :
    sanitizeOutput true 12 (sanitizeOutput true 12 "123-456-78901") ≠
      sanitizeOutput true 12 "123-456-78901" := by
  decide

/-- If every configured filter is total (never throws), the filter loop
returns a violation list rather than an exception. -/
theorem runFilters_ok (fs : List CustomFilter) (c t : String)
    (h : ∀ f ∈ fs, ∀ x y, ∃ r, f x y = Except.ok r) :
    ∃ vs, runFilters fs c t = .ok vs := by
  induction fs with
  | nil => exact ⟨[], rfl⟩
  | cons f fs ih =>
    obtain ⟨r, hr⟩ := h f (List.mem_cons_self f fs) c t
    obtain ⟨vs, hvs⟩ := ih (fun g hg x y => h g (List.mem_cons_of_mem f hg) x y)
    cases r with
    | none => exact ⟨vs, by simp [runFilters, hr, hvs]⟩
    | some cr =>
      by_cases hv : cr.valid
      · exact ⟨vs, by simp [runFilters, hr, hvs, hv]⟩
      · exact ⟨cr.reason.getD "Custom filter violation" :: vs,
          by simp [runFilters, hr, hvs, hv, Except.map]⟩

/-- Claim C6 (amended): `validateContent` returns a result value — it never
raises — provided every configured custom predicate is itself non-throwing
(a predicate returning an invalid result only contributes a violation entry);
but a predicate that throws has its exception propagate out of the call,
because the filter loop has no try/catch
(`validateContent_filter_exception_propagates`). -/
theorem validateContent_never_raises_of_total_filters
    (pol : GRPolicies) (filters : List CustomFilter) (content ty : String) (st : RegexStates)
    (h : ∀ f ∈ filters, ∀ x y, ∃ r, f x y = Except.ok r) :
    ∃ res st', validateContent pol filters content ty st = (.ok res, st') := by
  obtain ⟨vs, hvs⟩ := runFilters_ok filters content ty h
  rcases hval : validateContent pol filters content ty st with ⟨r, st2⟩
  cases r with
  | ok res => exact ⟨res, st2, rfl⟩
  | error e =>
    exfalso
    by_cases hc : content = ""
    · simp [validateContent, hc] at hval
    · simp [validateContent, hc, hvs] at hval

/-- Witness for `validateContent_never_raises_of_total_filters`: with one
total (always-invalid) filter configured the call returns a result value. -/
theorem validateContent_never_raises_of_total_filters_witness :
    ∃ res st', validateContent defaultGRPolicies
        ([fun _ _ => Except.ok (some ⟨false, some "flagged"⟩)] : List CustomFilter)
        "hello" "input" initialRegexStates = (.ok res, st') :=
  validateContent_never_raises_of_total_filters _ _ _ _ _ (by
    intro f hf x y
    simp only [List.mem_singleton] at hf
    subst hf
    exact ⟨some ⟨false, some "flagged"⟩, rfl⟩)

/-- Claim C6 counterexample: a custom predicate that faults when applied makes
`validateContent` itself fault — the exception propagates out of the call
instead of being recorded as a violation. -/
theorem validateContent_filter_exception_propagates :
    (validateContent defaultGRPolicies
      ([fun _ _ => Except.error "filter crashed"] : List CustomFilter)
      "hello" "input" initialRegexStates).1 = Except.error "filter crashed" := rfl

/-- Claim C9: `validateContent` is not deterministic across consecutive calls
on one instance.  The `/gi` harmful-content regexes stored on the instance
keep their `lastIndex` between calls and `validateContent` never resets it
(unlike `validateCode`), so the first call on the text `kill` (fresh
instance, default policies) reports a harmful-content violation while the
immediately repeated identical call reports the text as valid. -/
theorem validateContent_consecutive_calls_differ :
    (validateContent defaultGRPolicies [] "kill" "input" initialRegexStates).1 =
      .ok ⟨false, ["Blocked harmful content pattern detected"]⟩ ∧
    (validateContent defaultGRPolicies [] "kill" "input"
      (validateContent defaultGRPolicies [] "kill" "input" initialRegexStates).2).1 =
      .ok ⟨true, []⟩ :=
  ⟨rfl, rfl⟩
